import Mathlib

/-!
Verification of the PyGPS edge telemetry agent (`main.py`) against its
natural-language specification.

The Python source is shallowly embedded: every stateful loop becomes an
explicit step function or a fold over an input list, machine/library numbers
become `ℚ` / `ℤ` / `ℕ`, fallible code returns `Option` / `Except`, and the
external collaborators (NMEA decoder, serial port, HTTP transport, asyncio
event loop, filesystem) are represented by the values they hand to the code
under test.  Definitions keep the source's names where Lean allows it.
-/

set_option maxHeartbeats 1000000

/-! ## Data model

A complete fix record, as persisted and uploaded:
`{GPSTimestamp, latitude, longitude, altitude, speed}`.  Python floats are
idealised as exact rationals, the epoch timestamp as an integer. -/

structure GpsFix where
  GPSTimestamp : ℤ
  latitude : ℚ
  longitude : ℚ
  altitude : ℚ
  speed : ℚ
  deriving DecidableEq

/-! ## Fix aggregator (`get_gps_data`, main.py lines 196-269) -/

/-- Model of `datetime.time`: the time-of-day field carried by an RMC
sentence, reduced to seconds since midnight. -/
structure PyTime where
  secOfDay : ℕ
  deriving DecidableEq

/-- Model of `datetime.date`: the date field carried by an RMC sentence,
reduced to days since the Unix epoch. -/
structure PyDate where
  daysSinceEpoch : ℤ
  deriving DecidableEq

/-- `get_timestamp` (main.py line 134): combine a date and a time-of-day into
a single UTC epoch integer, modelling
`int(datetime.datetime.combine(date, time).timestamp())`. -/
def get_timestamp (t : PyTime) (d : PyDate) : ℤ :=
  d.daysSinceEpoch * 86400 + t.secOfDay

/-- Python's `round` on rationals: round half to even (banker's rounding). -/
def pyRoundInt (q : ℚ) : ℤ :=
  if q - ⌊q⌋ < 1 / 2 then ⌊q⌋
  else if 1 / 2 < q - ⌊q⌋ then ⌊q⌋ + 1
  else if ⌊q⌋ % 2 = 0 then ⌊q⌋ else ⌊q⌋ + 1

/-- `round(x, 7)`: round to 7 decimal places, as applied to latitude and
longitude in the RMC branch of `get_gps_data`. -/
def pyRound7 (q : ℚ) : ℚ :=
  (pyRoundInt (q * 10 ^ 7) : ℚ) / 10 ^ 7

/-- A decoded NMEA sentence, as `get_gps_data` discriminates them with
`isinstance`.  Field payloads are optional because `pynmea2` yields `None`
for empty sentence fields and `safe_getattr` defaults to `None`; the RMC
branch of the source explicitly tests its four attributes against `None`. -/
inductive Sentence where
  | GGA (altitude : Option ℚ)
  | RMC (latitude longitude : Option ℚ) (timestamp : Option PyTime) (datestamp : Option PyDate)
  | VTG (spd_over_grnd_kmph : Option ℚ)
  | other
  deriving DecidableEq

/-- The mutable accumulator dict of `get_gps_data` (main.py lines 209-215):
all five fields start as `None`. -/
structure GpsAccum where
  latitude : Option ℚ
  longitude : Option ℚ
  altitude : Option ℚ
  speed : Option ℚ
  GPSTimestamp : Option ℤ
  deriving DecidableEq

def initAccum : GpsAccum :=
  { latitude := none, longitude := none, altitude := none
    speed := none, GPSTimestamp := none }

/-- `dict_is_none` (main.py line 118): `True` iff some field is still `None`. -/
def dict_is_none (d : GpsAccum) : Bool :=
  d.latitude.isNone || d.longitude.isNone || d.altitude.isNone ||
    d.speed.isNone || d.GPSTimestamp.isNone

/-- One iteration of the dispatch in `get_gps_data` (main.py lines 245-264):
how a single parsed sentence updates the accumulator. -/
def stepSentence (d : GpsAccum) : Sentence → GpsAccum
  | Sentence.GGA alt => { d with altitude := alt }
  | Sentence.RMC la lo t dt =>
      let d1 :=
        match la, lo with
        | some a, some b =>
            { d with latitude := some (pyRound7 a), longitude := some (pyRound7 b) }
        | _, _ => d
      match t, dt with
      | some tt, some dd => { d1 with GPSTimestamp := some (get_timestamp tt dd) }
      | _, _ => d1
  | Sentence.VTG s => { d with speed := s }
  | Sentence.other => d

/-- The `while dict_is_none(data)` loop of `get_gps_data`, driven by the
stream of successfully parsed sentences: the completeness test runs at the
top of the loop, so the function returns right after the sentence that
fills the last field.  `none` means the input stream was exhausted with the
accumulator still incomplete (the real loop would block reading the serial
port forever). -/
def get_gps_dataGo : GpsAccum → List Sentence → Option GpsAccum
  | d, [] => if dict_is_none d = false then some d else none
  | d, m :: ms =>
      if dict_is_none d = false then some d
      else get_gps_dataGo (stepSentence d m) ms

/-- `get_gps_data` (main.py lines 196-269) on a finite prefix of the parsed
sentence stream. -/
def get_gps_data (msgs : List Sentence) : Option GpsAccum :=
  get_gps_dataGo initAccum msgs

/-- A sentence that supplies the position pair: an RMC with both
coordinates present. -/
def suppliesPos : Sentence → Bool
  | Sentence.RMC (some _) (some _) _ _ => true
  | _ => false

/-- A sentence that supplies the fix timestamp: an RMC with both the
time-of-day and the date present. -/
def suppliesTime : Sentence → Bool
  | Sentence.RMC _ _ (some _) (some _) => true
  | _ => false

/-- A sentence that supplies the altitude: a GGA with the altitude present. -/
def suppliesAlt : Sentence → Bool
  | Sentence.GGA (some _) => true
  | _ => false

/-- A sentence that supplies the speed: a VTG with the speed present. -/
def suppliesSpeed : Sentence → Bool
  | Sentence.VTG (some _) => true
  | _ => false

/-- A sentence whose field-bearing slots are populated: a GGA or VTG with an
absent payload overwrites (clears) the accumulated altitude or speed, so the
aggregator only accumulates monotonically across sentences satisfying this. -/
def carriesPayload : Sentence → Bool
  | Sentence.GGA a => a.isSome
  | Sentence.VTG s => s.isSome
  | _ => true

/-! ## Motion filter (`get_gps_loop`, main.py lines 359-387) -/

/-- The configuration the motion filter reads: stop-speed threshold (km/h),
stop-duration threshold (seconds), and the flag that force-disables
suppression. -/
structure MotionConfig where
  TRIGGER_STOP_SPEED : ℚ
  TRIGGER_STOP_TIME : ℤ
  DISABLE_IGNORE_STOP : Bool
  deriving DecidableEq

/-- The three local state variables of `get_gps_loop`. -/
structure MotionState where
  ignore : Bool
  stopping : Bool
  stop_timestamp : ℤ
  deriving DecidableEq

/-- Initial state of `get_gps_loop` (main.py lines 360-362). -/
def motionInit : MotionState :=
  { ignore := false, stopping := false, stop_timestamp := 0 }

/-- One iteration of the `get_gps_loop` body on a complete fix: the updated
state, paired with whether the fix is put on the upload queue
(`(not ignore) or DISABLE_IGNORE_STOP`, evaluated after the update). -/
def get_gps_step (cfg : MotionConfig) (st : MotionState) (f : GpsFix) :
    MotionState × Bool :=
  let st' :=
    if f.speed < cfg.TRIGGER_STOP_SPEED then
      if st.stopping = false then
        { st with stop_timestamp := f.GPSTimestamp, stopping := true }
      else if cfg.TRIGGER_STOP_TIME < f.GPSTimestamp - st.stop_timestamp then
        { st with ignore := true }
      else st
    else
      { st with stopping := false, ignore := false }
  (st', !st'.ignore || cfg.DISABLE_IGNORE_STOP)

/-- Run `get_gps_loop` over a finite fix sequence, collecting for each fix
whether it was enqueued for delivery. -/
def get_gps_run (cfg : MotionConfig) : MotionState → List GpsFix → List Bool
  | _, [] => []
  | st, f :: fs =>
      (get_gps_step cfg st f).2 :: get_gps_run cfg (get_gps_step cfg st f).1 fs

/-- The motion-filter state after consuming a finite fix sequence. -/
def get_gps_state (cfg : MotionConfig) : MotionState → List GpsFix → MotionState
  | st, [] => st
  | st, f :: fs => get_gps_state cfg (get_gps_step cfg st f).1 fs

/-! ## Network monitor (`check_network_task`, main.py lines 165-177) -/

/-- What one probe iteration observes from `Aclient.get(... /ping/)`: either
an HTTP response (with its status code) or a raised exception (timeout,
connection refusal, and so on). -/
inductive ProbeOutcome where
  | response (status : ℕ)
  | failure
  deriving DecidableEq

/-- Success as the spec defines it at the `/ping/` interface: any 2xx. -/
def is2xx (s : ℕ) : Bool :=
  decide (200 ≤ s) && decide (s < 300)

/-- One iteration of `check_network_task`: the new value of the module-level
`is_network_available` flag.  The source performs no status-code check on
the response, so any response — 2xx or not — sets the flag to `True`; only a
raised exception sets it to `False`. -/
def check_network_step (_st : Option Bool) : ProbeOutcome → Option Bool
  | ProbeOutcome.response _ => some true
  | ProbeOutcome.failure => some false

/-- The `is_network_available` flag after a finite run of probe iterations,
starting from its module-level initial value `None`. -/
def check_network_run (ps : List ProbeOutcome) : Option Bool :=
  ps.foldl check_network_step none

/-! ## Uploader (`aretry`, main.py lines 139-155; `upload_gps_data`,
main.py lines 272-287) -/

/-- The exceptions an upload attempt can raise, grouped by which `except`
arm of `aretry` would catch them: `httpx.HTTPError` (transport faults) or
any other `Exception` (for example a response-decoding error). -/
inductive PyExn where
  | httpError
  | otherError
  deriving DecidableEq

/-- The behaviour of one HTTP POST attempt: either it raises, or it yields a
response with some status code.  The source never calls
`raise_for_status`, so a non-2xx response is just a response. -/
inductive AttemptOutcome where
  | raises (e : PyExn)
  | respond (status : ℕ)
  deriving DecidableEq

/-- `aretry`'s `except` arms: `except httpx.HTTPError` followed by
`except Exception` — every modelled exception is caught. -/
def aretryCatches : PyExn → Bool := fun _ => true

/-- The decorator arguments at the `upload_gps_data` definition site:
`@aretry(times=3, interval=0.5)`. -/
def UPLOAD_RETRY_TIMES : ℕ := 3

/-- The fixed inter-attempt delay, in seconds. -/
def UPLOAD_RETRY_INTERVAL : ℚ := 1 / 2

/-- The `for i in range(times)` loop of `aretry`'s wrapper: run attempts
until one returns without raising or the attempt budget is exhausted.
Result: the wrapper's outcome (`Except.error` would be an exception
propagating to the caller; `Except.ok none` is the implicit `return None`
after the loop; `Except.ok (some a)` is a normal return), paired with the
number of attempts actually executed. -/
def aretryRun (f : ℕ → Except PyExn Unit) : ℕ → ℕ → Except PyExn (Option Unit) × ℕ
  | 0, _ => (Except.ok none, 0)
  | n + 1, i =>
      match f i with
      | Except.ok a => (Except.ok (some a), 1)
      | Except.error e =>
          if aretryCatches e then
            ((aretryRun f n (i + 1)).1, (aretryRun f n (i + 1)).2 + 1)
          else (Except.error e, 1)

/-- The payload shapes `upload_gps_data` accepts: a single fix dict or a
list of fix dicts. -/
inductive UploadData where
  | single (f : GpsFix)
  | multi (l : List GpsFix)
  deriving DecidableEq

/-- An HTTP request as issued by `upload_gps_data`: the API route and the
JSON payload. -/
structure HttpRequest where
  route : String
  payload : UploadData
  deriving DecidableEq

/-- Which request one (non-skipped) attempt issues, per the
`isinstance(data, dict)` / `isinstance(data, list)` dispatch and
`API_ROUTES`. -/
def mkRequest : UploadData → HttpRequest
  | UploadData.single f => { route := "/gps/upload/", payload := UploadData.single f }
  | UploadData.multi l => { route := "/gps/upload/multi/", payload := UploadData.multi l }

/-- One attempt of the undecorated `upload_gps_data` body, given the
`is_network_available` flag and the transport's behaviour: when the flag is
`False` (and only then) the body returns early without touching the
transport; otherwise a raised exception propagates to `aretry` and any
response — whatever its status — completes the attempt normally. -/
def upload_attempt (net : Option Bool) (t : AttemptOutcome) : Except PyExn Unit :=
  if net = some false then Except.ok ()
  else
    match t with
    | AttemptOutcome.raises e => Except.error e
    | AttemptOutcome.respond _ => Except.ok ()

/-- A full call of the decorated `upload_gps_data`: the wrapper's outcome
and the number of attempts executed, as a function of the network flag and
the per-attempt transport behaviour. -/
def upload_gps_data_run (net : Option Bool) (tr : ℕ → AttemptOutcome) :
    Except PyExn (Option Unit) × ℕ :=
  aretryRun (fun i => upload_attempt net (tr i)) UPLOAD_RETRY_TIMES 0

/-- The HTTP requests a full `upload_gps_data` call sends to the transport:
none at all when the network flag is `False`, otherwise one request per
executed attempt. -/
def upload_requests (net : Option Bool) (d : UploadData) (tr : ℕ → AttemptOutcome) :
    List HttpRequest :=
  if net = some false then []
  else (List.range (upload_gps_data_run net tr).2).map (fun _ => mkRequest d)

/-! ## Delivery queue drain (`handle_gps_loop`, main.py lines 390-410) -/

/-- An upload call as dispatched by the queue-drain loop. -/
inductive UploadCall where
  | single (f : GpsFix)
  | batch (l : List GpsFix)
  deriving DecidableEq

/-- In-place operations on a Python list object. -/
inductive PyListOp where
  | clear
  | append (f : GpsFix)
  deriving DecidableEq

/-- Apply a sequence of in-place list operations to a list value. -/
def applyOps : List GpsFix → List PyListOp → List GpsFix
  | l, [] => l
  | _, PyListOp.clear :: ops => applyOps [] ops
  | l, PyListOp.append f :: ops => applyOps (l ++ [f]) ops

/-- The observable effects of one iteration of `handle_gps_loop`. -/
structure PassResult where
  remaining : List GpsFix
  saved : List GpsFix
  callsAtSchedule : List UploadCall
  callsAtRun : List UploadCall
  deriving DecidableEq

/-- One iteration of `handle_gps_loop` on a snapshot `q` of the queue
contents (threshold 10 is the literal in `if queue_size >= 10`).  In the
drain branch the source schedules `upload_gps_data(lst)` with
`asyncio.ensure_future` — fire and forget — and immediately executes
`lst.clear()`; the scheduled task only starts at the loop's next suspension
point, after the clear, so the payload list object it observes has been
emptied.  `callsAtSchedule` records payload contents at scheduling time,
`callsAtRun` the contents when the task actually runs. -/
def handle_gps_pass (q : List GpsFix) : PassResult :=
  let queue_size := q.length
  if 10 ≤ queue_size then
    let lst := q.take queue_size
    { remaining := q.drop queue_size
      saved := lst
      callsAtSchedule := [UploadCall.batch lst]
      callsAtRun := [UploadCall.batch (applyOps lst [PyListOp.clear])] }
  else
    match q with
    | [] =>
        { remaining := [], saved := [], callsAtSchedule := [], callsAtRun := [] }
    | f :: rest =>
        { remaining := rest
          saved := [f]
          callsAtSchedule := [UploadCall.single f]
          callsAtRun := [UploadCall.single f] }

/-! ## Durable store (`save_gps_data`, main.py lines 313-322;
`read_gps_data`, main.py lines 325-356; `upload_store_gps_data`,
main.py lines 290-310)

The per-day CSV file is modelled as the list of lines `readlines` would
return, each a `List Char` still carrying its trailing newline; a missing
file is `none`.  Python's `str`/`int`/`float` conversions are modelled
exactly on the decimal fragment they exchange through this file. -/

/-- The character for a decimal digit value. -/
def digitChar (d : ℕ) : Char := Char.ofNat (48 + d)

/-- Is this character a decimal digit? -/
def charIsDigit (c : Char) : Bool :=
  decide ('0' ≤ c) && decide (c ≤ '9')

/-- The whitespace characters Python's `str.strip` removes. -/
def pyIsSpace (c : Char) : Bool :=
  c == ' ' || c == '\t' || c == '\n' || c == '\r' || c == '\x0b' || c == '\x0c'

/-- `str.strip()`: drop whitespace from both ends. -/
def pyStrip (cs : List Char) : List Char :=
  ((cs.dropWhile pyIsSpace).reverse.dropWhile pyIsSpace).reverse

/-- `str.split(",")`: split on every comma; splitting the empty string
yields one empty field, exactly as in Python. -/
def splitOnComma : List Char → List (List Char)
  | [] => [[]]
  | c :: rest =>
      if c = ',' then [] :: splitOnComma rest
      else (c :: (splitOnComma rest).headD []) :: (splitOnComma rest).tail

/-- The numeric value of a big-endian digit string. -/
def digitsVal (cs : List Char) : ℕ :=
  cs.foldl (fun a c => 10 * a + (c.toNat - 48)) 0

/-- All characters are decimal digits. -/
def allDigits (cs : List Char) : Bool := cs.all charIsDigit

/-- The value of a little-endian digit list. -/
def lDigitsVal : List ℕ → ℕ
  | [] => 0
  | d :: l => d + 10 * lDigitsVal l

/-- Little-endian decimal digits of a natural number (fuel-driven so that
the kernel can evaluate it; fuel `n` always suffices). -/
def natDigitsRevGo : ℕ → ℕ → List ℕ
  | 0, _ => []
  | _ + 1, 0 => []
  | fuel + 1, n + 1 => ((n + 1) % 10) :: natDigitsRevGo fuel ((n + 1) / 10)

/-- Little-endian decimal digits of `n`. -/
def natDigitsRev (n : ℕ) : List ℕ := natDigitsRevGo n n

/-- `str` of a natural number. -/
def natStrChars (n : ℕ) : List Char :=
  if n = 0 then ['0'] else ((natDigitsRev n).map digitChar).reverse

/-- `str` of a Python int. -/
def intStrChars (i : ℤ) : List Char :=
  if i < 0 then '-' :: natStrChars i.natAbs else natStrChars i.natAbs

/-- Search for the least exponent `e` (starting at `e₀`, trying at most
`fuel + 1` values) with `q * 10 ^ e` integral. -/
def decExpGo (q : ℚ) : ℕ → ℕ → ℕ
  | e, 0 => e
  | e, fuel + 1 => if (q * 10 ^ e).den = 1 then e else decExpGo q (e + 1) fuel

/-- The number of decimal fractional digits of `q`, when `q` has a
terminating decimal expansion. -/
def decExp (q : ℚ) : ℕ := decExpGo q 0 q.den

/-- `q` has a terminating decimal expansion (every value a Python float can
hold does).  Stated through `decExp` so it is directly computable. -/
def IsDecimal (q : ℚ) : Prop := (q * 10 ^ decExp q).den = 1

instance (q : ℚ) : Decidable (IsDecimal q) := by
  unfold IsDecimal; infer_instance

/-- A fractional-part digit string: the digits of `m` left-padded with
zeros to width `k`. -/
def fracPadChars (m k : ℕ) : List Char :=
  List.replicate (k - (natStrChars m).length) '0' ++ natStrChars m

/-- `str` of a non-negative Python float with a terminating decimal
expansion: integer part, a dot, then the fractional digits (at least one,
as Python always prints — for example `"23.0"`, `"0.05"`). -/
def floatStrAbs (q : ℚ) : List Char :=
  let k := decExp q
  let m := (q * 10 ^ k).num.natAbs
  if k = 0 then natStrChars m ++ ['.', '0']
  else natStrChars (m / 10 ^ k) ++ '.' :: fracPadChars (m % 10 ^ k) k

/-- `str` of a Python float with a terminating decimal expansion. -/
def floatStrChars (q : ℚ) : List Char :=
  if q < 0 then '-' :: floatStrAbs (-q) else floatStrAbs q

/-- The digit-string fragment of Python's `int(s)`: a non-empty run of
digits. -/
def pyNatDigits? (cs : List Char) : Option ℕ :=
  if cs.isEmpty then none
  else if allDigits cs then some (digitsVal cs) else none

/-- Python's `int(s)` on the strings at issue here: an optional minus sign
followed by digits; anything else raises `ValueError` (`none`). -/
def pyInt? (cs : List Char) : Option ℤ :=
  if cs.head? = some '-' then (pyNatDigits? (cs.drop 1)).map (fun n => -Int.ofNat n)
  else (pyNatDigits? cs).map Int.ofNat

/-- Python's `float(s)` on an unsigned literal: digits, optionally a dot
and more digits, with at least one digit in total. -/
def pyFloatAbs? (cs : List Char) : Option ℚ :=
  let ip := cs.takeWhile charIsDigit
  let rest := cs.dropWhile charIsDigit
  if rest.isEmpty then
    if ip.isEmpty then none else some (digitsVal ip : ℚ)
  else if rest.head? = some '.' then
    let fr := rest.drop 1
    if allDigits fr then
      if ip.isEmpty && fr.isEmpty then none
      else some ((digitsVal ip : ℚ) + (digitsVal fr : ℚ) / 10 ^ fr.length)
    else none
  else none

/-- Python's `float(s)` on the decimal literals at issue here: an optional
minus sign followed by an unsigned literal; anything else raises
`ValueError` (`none`). -/
def pyFloat? (cs : List Char) : Option ℚ :=
  if cs.head? = some '-' then (pyFloatAbs? (cs.drop 1)).map Neg.neg
  else pyFloatAbs? cs

/-- The record body `save_gps_data` formats (main.py line 321): the five
fields in the fixed order `GPSTimestamp,latitude,longitude,altitude,speed`,
comma-separated. -/
def saveLineChars (f : GpsFix) : List Char :=
  intStrChars f.GPSTimestamp ++
    ',' :: (floatStrChars f.latitude ++
      ',' :: (floatStrChars f.longitude ++
        ',' :: (floatStrChars f.altitude ++
          ',' :: floatStrChars f.speed)))

/-- `save_gps_data` appends the record body plus a newline. -/
def save_gps_line (f : GpsFix) : List Char := saveLineChars f ++ ['\n']

/-- Parsing of one line inside the `read_gps_data` loop (main.py lines
346-353): `line.strip().split(",")`, then `int` on field 0 and `float` on
fields 1-4.  A missing field (`IndexError`) or an unparsable field
(`ValueError`) raises, which nothing in the source catches. -/
def parseRecord (line : List Char) : Except Unit GpsFix :=
  let fs := splitOnComma (pyStrip line)
  match fs[0]?, fs[1]?, fs[2]?, fs[3]?, fs[4]? with
  | some f0, some f1, some f2, some f3, some f4 =>
      match pyInt? f0, pyFloat? f1, pyFloat? f2, pyFloat? f3, pyFloat? f4 with
      | some ts, some la, some lo, some al, some sp =>
          Except.ok
            { GPSTimestamp := ts, latitude := la, longitude := lo
              altitude := al, speed := sp }
      | _, _, _, _, _ => Except.error ()
  | _, _, _, _, _ => Except.error ()

/-- The record-accumulation loop of `read_gps_data`: lines are parsed in
order and the first failure propagates as an exception, abandoning the
records already parsed and leaving the rest unread. -/
def parseLines : List (List Char) → Except Unit (List GpsFix)
  | [] => Except.ok []
  | l :: ls =>
      match parseRecord l with
      | Except.error e => Except.error e
      | Except.ok f => (parseLines ls).map (fun fs => f :: fs)

/-- `read_gps_data` (main.py lines 325-356): `none` input models
`filepath.exists()` returning `False`, for which the function returns
`None` without error; otherwise every line of the file is parsed. -/
def read_gps_data (file : Option (List (List Char))) :
    Except Unit (Option (List GpsFix)) :=
  match file with
  | none => Except.ok none
  | some lines => (parseLines lines).map some

/-- `NUM_PER_UPLOAD` (main.py line 38): records per batched upload during
replay, default 100. -/
def NUM_PER_UPLOAD : ℕ := 100

/-- The chunking loop of `upload_store_gps_data` (main.py lines 296-308):
accumulate records, flush a batch whenever the accumulator reaches `nPer`,
and flush the non-empty remainder at the end. -/
def uploadChunks (nPer : ℕ) : List GpsFix → List GpsFix → List UploadCall
  | lst, [] => if lst.isEmpty then [] else [UploadCall.batch lst]
  | lst, d :: ds =>
      if nPer ≤ (lst ++ [d]).length then
        UploadCall.batch (lst ++ [d]) :: uploadChunks nPer [] ds
      else uploadChunks nPer (lst ++ [d]) ds

/-- `upload_store_gps_data` (main.py lines 290-310): the startup replay.
Reads the current day's store file; a missing file yields no upload calls
and a normal return; otherwise the records are submitted in batches.  (The
store format has no delivery-state field, so every persisted record counts
as not yet confirmed sent.)  A parse error propagates. -/
def upload_store_gps_data (file : Option (List (List Char))) :
    Except Unit (List UploadCall) :=
  match read_gps_data file with
  | Except.error e => Except.error e
  | Except.ok none => Except.ok []
  | Except.ok (some datas) => Except.ok (uploadChunks NUM_PER_UPLOAD [] datas)

/-- The fixes covered by an upload call. -/
def callPayload : UploadCall → List GpsFix
  | UploadCall.single f => [f]
  | UploadCall.batch l => l

/-- The fixes covered by a sequence of upload calls, in order. -/
def callsPayload (cs : List UploadCall) : List GpsFix :=
  (cs.map callPayload).flatten

/-- Characters that can occur in a serialized numeric field: digits, the
minus sign and the decimal point. -/
def goodChar (c : Char) : Bool := charIsDigit c || c == '-' || c == '.'

deriving instance DecidableEq for Except

/-- The Python value the caller receives when the wrapper returns without
raising: the wrapped body only ever returns `None` (modelled `()`), and
falling off the retry loop also returns `None`, so both `Option Unit`
outcomes denote the same Python value. -/
def wrapperValue : Option Unit → Unit := fun _ => ()

/-- A fix whose four float fields all have terminating decimal expansions
(as every Python float does). -/
def DecimalFix (f : GpsFix) : Prop :=
  IsDecimal f.latitude ∧ IsDecimal f.longitude ∧
    IsDecimal f.altitude ∧ IsDecimal f.speed

instance (f : GpsFix) : Decidable (DecimalFix f) := by
  unfold DecimalFix; infer_instance

/-! ## Helper lemmas -/

theorem aretryRun_zero (f : ℕ → Except PyExn Unit) (i : ℕ) :
    aretryRun f 0 i = (Except.ok none, 0) := rfl

theorem aretryRun_ok (f : ℕ → Except PyExn Unit) (n i : ℕ) (a : Unit)
    (h : f i = Except.ok a) :
    aretryRun f (n + 1) i = (Except.ok (some a), 1) := by
  simp [aretryRun, h]

theorem aretryRun_err (f : ℕ → Except PyExn Unit) (n i : ℕ) (e : PyExn)
    (h : f i = Except.error e) :
    aretryRun f (n + 1) i = ((aretryRun f n (i + 1)).1, (aretryRun f n (i + 1)).2 + 1) := by
  simp [aretryRun, h, aretryCatches]

theorem aretryRun_attempts_pos (f : ℕ → Except PyExn Unit) (n i : ℕ) :
    1 ≤ (aretryRun f (n + 1) i).2 := by
  cases h : f i with
  | ok a => simp [aretryRun_ok f n i a h]
  | error e => simp [aretryRun_err f n i e h]

theorem aretryRun_result (f : ℕ → Except PyExn Unit) :
    ∀ n i, (aretryRun f n i).1 = Except.ok none ∨ (aretryRun f n i).1 = Except.ok (some ()) := by
  intro n
  induction n with
  | zero => intro i; left; rfl
  | succ m ih =>
      intro i
      cases h : f i with
      | ok a => right; rw [aretryRun_ok f m i a h]
      | error e => rw [aretryRun_err f m i e h]; exact ih (i + 1)

theorem upload_attempt_err (net : Option Bool) (e : PyExn) (t : AttemptOutcome)
    (hnet : net ≠ some false) (h : t = AttemptOutcome.raises e) :
    upload_attempt net t = Except.error e := by
  simp [upload_attempt, if_neg hnet, h]

theorem upload_attempt_ok (net : Option Bool) (s : ℕ) (t : AttemptOutcome)
    (h : t = AttemptOutcome.respond s) :
    upload_attempt net t = Except.ok () := by
  by_cases hnet : net = some false <;> simp [upload_attempt, hnet, h]

/-- When the network flag is not `False` and every attempt raises, the
decorated `upload_gps_data` executes all 3 attempts and returns `None`
without raising. -/
theorem upload_allfail (net : Option Bool) (tr : ℕ → AttemptOutcome)
    (hnet : net ≠ some false)
    (hall : ∀ i, i < 3 → ∃ e, tr i = AttemptOutcome.raises e) :
    upload_gps_data_run net tr = (Except.ok none, 3) := by
  obtain ⟨e0, h0⟩ := hall 0 (by norm_num)
  obtain ⟨e1, h1⟩ := hall 1 (by norm_num)
  obtain ⟨e2, h2⟩ := hall 2 (by norm_num)
  have g0 : upload_attempt net (tr 0) = Except.error e0 := upload_attempt_err net e0 _ hnet h0
  have g1 : upload_attempt net (tr 1) = Except.error e1 := upload_attempt_err net e1 _ hnet h1
  have g2 : upload_attempt net (tr 2) = Except.error e2 := upload_attempt_err net e2 _ hnet h2
  show aretryRun (fun i => upload_attempt net (tr i)) 3 0 = (Except.ok none, 3)
  rw [show (3 : ℕ) = 2 + 1 from rfl, aretryRun_err _ 2 0 e0 g0,
    aretryRun_err _ 1 1 e1 g1, aretryRun_err _ 0 2 e2 g2, aretryRun_zero]

/-! ## C2: batched queue drain -/

/-- C2: with a backlog of 25 fixes (threshold 10), one drain pass of
`handle_gps_loop` dequeues all 25, persists each, and schedules exactly one
batched upload call — but `lst.clear()` runs before the fire-and-forget
upload task does, so the batch payload the task observes is empty, not the
25 fixes the claim promises. -/
theorem C2_failing_eval :
    handle_gps_pass (List.replicate 25 (⟨0, 0, 0, 0, 0⟩ : GpsFix)) =
      { remaining := []
        saved := List.replicate 25 (⟨0, 0, 0, 0, 0⟩ : GpsFix)
        callsAtSchedule := [UploadCall.batch (List.replicate 25 (⟨0, 0, 0, 0, 0⟩ : GpsFix))]
        callsAtRun := [UploadCall.batch []] } ∧
    (handle_gps_pass (List.replicate 25 (⟨0, 0, 0, 0, 0⟩ : GpsFix))).callsAtRun ≠
      [UploadCall.batch (List.replicate 25 (⟨0, 0, 0, 0, 0⟩ : GpsFix))] := by
  decide

/-! ## C4: motion filter -/

/-- C4: the motion filter (i) delivers any fix whose speed is at or above
the stop-speed threshold and transitions back to moving with the suppression
flag cleared — no off-by-one at the speed boundary; (ii) while stopped (and
not yet suppressing), a below-threshold fix is suppressed exactly when the
elapsed time since the first below-threshold fix strictly exceeds the
stop-duration threshold; (iii) a below-threshold fix arriving in the moving
state starts the stop timer afresh at that fix's timestamp and is itself
delivered; (iv) over any fix sequence, a final at-or-above-threshold fix is
always delivered. -/
theorem C4_theorem :
    (∀ (cfg : MotionConfig) (st : MotionState) (f : GpsFix),
        cfg.TRIGGER_STOP_SPEED ≤ f.speed →
        (get_gps_step cfg st f).2 = true ∧
        (get_gps_step cfg st f).1 =
          { ignore := false, stopping := false, stop_timestamp := st.stop_timestamp }) ∧
    (∀ (cfg : MotionConfig) (st : MotionState) (f : GpsFix),
        st.ignore = false → st.stopping = true →
        f.speed < cfg.TRIGGER_STOP_SPEED → cfg.DISABLE_IGNORE_STOP = false →
        ((get_gps_step cfg st f).2 = false ↔
          cfg.TRIGGER_STOP_TIME < f.GPSTimestamp - st.stop_timestamp)) ∧
    (∀ (cfg : MotionConfig) (st : MotionState) (f : GpsFix),
        st.stopping = false → st.ignore = false →
        f.speed < cfg.TRIGGER_STOP_SPEED →
        (get_gps_step cfg st f).1 =
          { ignore := false, stopping := true, stop_timestamp := f.GPSTimestamp } ∧
        (get_gps_step cfg st f).2 = true) ∧
    (∀ (cfg : MotionConfig) (fs : List GpsFix) (g : GpsFix),
        cfg.TRIGGER_STOP_SPEED ≤ g.speed →
        get_gps_run cfg motionInit (fs ++ [g]) =
          get_gps_run cfg motionInit fs ++ [true]) := by
  have hfast : ∀ (cfg : MotionConfig) (st : MotionState) (f : GpsFix),
      cfg.TRIGGER_STOP_SPEED ≤ f.speed →
      (get_gps_step cfg st f).2 = true ∧
      (get_gps_step cfg st f).1 =
        { ignore := false, stopping := false, stop_timestamp := st.stop_timestamp } := by
    intro cfg st f h
    have hlt : ¬ f.speed < cfg.TRIGGER_STOP_SPEED := not_lt.mpr h
    cases st
    simp [get_gps_step, hlt]
  have hrun_append : ∀ (cfg : MotionConfig) (xs ys : List GpsFix) (st : MotionState),
      get_gps_run cfg st (xs ++ ys) =
        get_gps_run cfg st xs ++ get_gps_run cfg (get_gps_state cfg st xs) ys := by
    intro cfg xs
    induction xs with
    | nil => intro ys st; simp [get_gps_run, get_gps_state]
    | cons x xs ih => intro ys st; simp [get_gps_run, get_gps_state, ih]
  refine ⟨hfast, ?_, ?_, ?_⟩
  · intro cfg st f hig hstop hsp hdis
    by_cases hT : cfg.TRIGGER_STOP_TIME < f.GPSTimestamp - st.stop_timestamp <;>
      simp [get_gps_step, hsp, hstop, hig, hdis, hT]
  · intro cfg st f hstop hig hsp
    cases st
    simp_all [get_gps_step]
  · intro cfg fs g h
    rw [hrun_append cfg fs [g] motionInit]
    have := hfast cfg (get_gps_state cfg motionInit fs) g h
    simp [get_gps_run, this.1]

/-- C4 witness: concrete instances of each part, with the default
configuration (stop speed 0.5 km/h, stop time 20 s, filter enabled). -/
theorem C4_witness :
    ((get_gps_step ⟨1/2, 20, false⟩ ⟨true, true, 100⟩ ⟨130, 1, 2, 3, 5⟩).2 = true ∧
      (get_gps_step ⟨1/2, 20, false⟩ ⟨true, true, 100⟩ ⟨130, 1, 2, 3, 5⟩).1 =
        { ignore := false, stopping := false, stop_timestamp := 100 }) ∧
    ((get_gps_step ⟨1/2, 20, false⟩ ⟨false, true, 100⟩ ⟨130, 1, 2, 3, 0⟩).2 = false ↔
      (20 : ℤ) < 130 - 100) ∧
    ((get_gps_step ⟨1/2, 20, false⟩ ⟨false, false, 0⟩ ⟨50, 1, 2, 3, 0⟩).1 =
      { ignore := false, stopping := true, stop_timestamp := 50 } ∧
      (get_gps_step ⟨1/2, 20, false⟩ ⟨false, false, 0⟩ ⟨50, 1, 2, 3, 0⟩).2 = true) ∧
    get_gps_run ⟨1/2, 20, false⟩ motionInit
        ([⟨0, 1, 2, 3, 0⟩, ⟨30, 1, 2, 3, 0⟩] ++ [⟨60, 1, 2, 3, 9⟩]) =
      get_gps_run ⟨1/2, 20, false⟩ motionInit [⟨0, 1, 2, 3, 0⟩, ⟨30, 1, 2, 3, 0⟩] ++ [true] :=
  ⟨C4_theorem.1 _ _ _ (by norm_num),
   C4_theorem.2.1 _ _ _ rfl rfl (by norm_num) rfl,
   C4_theorem.2.2.1 _ _ _ rfl rfl (by norm_num),
   C4_theorem.2.2.2 _ _ _ (by norm_num)⟩

/-! ## C5: network monitor -/

/-- C5 counterexample: a non-2xx ping response (status 500) sets the
network flag to `True` (up), not `False` (down) as the claim requires — the
source never inspects the response's status code. -/
theorem C5_counterexample :
    is2xx 500 = false ∧
    check_network_step none (ProbeOutcome.response 500) = some true ∧
    check_network_step none (ProbeOutcome.response 500) ≠ some false := by
  decide

/-- C5 (amended): before the first probe completes the network state is
`None` (unknown); each probe iteration sets it to `True` exactly when the
ping request yields any HTTP response (regardless of status code), and to
`False` on any raised failure (timeout, connection refusal, and so on). -/
theorem C5_theorem :
    check_network_run [] = none ∧
    (∀ (st : Option Bool) (s : ℕ),
        check_network_step st (ProbeOutcome.response s) = some true) ∧
    (∀ st : Option Bool, check_network_step st ProbeOutcome.failure = some false) :=
  ⟨rfl, fun _ _ => rfl, fun _ => rfl⟩

/-! ## C6: network gating of uploads -/

/-- C6: when the network flag is `False`, a call of `upload_gps_data`
issues no HTTP request at all; when the flag is `True` or still `None`, the
upload is attempted (at least one request is issued, with the payload's
route and body). -/
theorem C6_theorem :
    (∀ (d : UploadData) (tr : ℕ → AttemptOutcome),
        upload_requests (some false) d tr = []) ∧
    (∀ (net : Option Bool) (d : UploadData) (tr : ℕ → AttemptOutcome),
        net ≠ some false →
        upload_requests net d tr ≠ [] ∧ mkRequest d ∈ upload_requests net d tr) := by
  constructor
  · intro d tr; simp [upload_requests]
  · intro net d tr hnet
    have hpos : 1 ≤ (upload_gps_data_run net tr).2 := by
      show 1 ≤ (aretryRun (fun i => upload_attempt net (tr i)) 3 0).2
      rw [show (3 : ℕ) = 2 + 1 from rfl]
      exact aretryRun_attempts_pos _ 2 0
    constructor
    · simp only [upload_requests, if_neg hnet]
      simp only [ne_eq, List.map_eq_nil_iff, List.range_eq_nil]
      omega
    · simp only [upload_requests, if_neg hnet, List.mem_map]
      refine ⟨0, ?_, ?_⟩
      · simp only [List.mem_range]; omega
      · simp

/-- C6 witness: with the flag still `None` (unknown) and a responsive
transport, the request for a concrete single-fix payload is issued. -/
theorem C6_witness :
    upload_requests none (UploadData.single ⟨0, 0, 0, 0, 0⟩)
        (fun _ => AttemptOutcome.respond 200) ≠ [] ∧
    mkRequest (UploadData.single ⟨0, 0, 0, 0, 0⟩) ∈
      upload_requests none (UploadData.single ⟨0, 0, 0, 0, 0⟩)
        (fun _ => AttemptOutcome.respond 200) :=
  C6_theorem.2 none _ _ (by decide)

/-! ## C7: upload retry policy -/

/-- C7 counterexample: a non-2xx upload response (status 500) is not
retried — `upload_gps_data` performs exactly one attempt and the wrapper
returns normally, because the body never raises on a bad status. -/
theorem C7_counterexample :
    is2xx 500 = false ∧
    upload_gps_data_run none (fun _ => AttemptOutcome.respond 500) =
      (Except.ok (some ()), 1) := by
  decide

/-- C7 (amended): when an upload attempt raises (a transport fault or any
other exception, such as a response decode error), `upload_gps_data`
retries, up to the fixed bound of 3 attempts with a fixed 0.5-second
inter-attempt delay; a non-2xx response status is not treated as a failure
and is not retried.  After exhausting retries the call is abandoned with a
plain `None` return — no exception aborts the caller — and the fix stays
recorded in the durable store, whose write in the drain pass precedes the
upload and does not depend on its outcome. -/
theorem C7_theorem :
    UPLOAD_RETRY_TIMES = 3 ∧ UPLOAD_RETRY_INTERVAL = 1 / 2 ∧
    (∀ (net : Option Bool) (tr : ℕ → AttemptOutcome),
        net ≠ some false →
        (∀ i, i < 3 → ∃ e, tr i = AttemptOutcome.raises e) →
        upload_gps_data_run net tr = (Except.ok none, 3)) ∧
    (∀ (net : Option Bool) (tr : ℕ → AttemptOutcome) (s : ℕ),
        tr 0 = AttemptOutcome.respond s →
        upload_gps_data_run net tr = (Except.ok (some ()), 1)) ∧
    (∀ q : List GpsFix, 10 ≤ q.length → (handle_gps_pass q).saved = q) := by
  refine ⟨rfl, rfl, upload_allfail, ?_, ?_⟩
  · intro net tr s h0
    show aretryRun (fun i => upload_attempt net (tr i)) 3 0 = (Except.ok (some ()), 1)
    rw [show (3 : ℕ) = 2 + 1 from rfl,
      aretryRun_ok _ 2 0 () (upload_attempt_ok net s _ h0)]
  · intro q hq
    simp [handle_gps_pass, if_pos hq, List.take_length]

/-- C7 witness: concrete instances — an always-raising transport exhausts
the 3 attempts and returns `None`; a transport answering 500 on the first
attempt finishes after 1 attempt; a 25-element backlog is saved whole. -/
theorem C7_witness :
    upload_gps_data_run none (fun _ => AttemptOutcome.raises PyExn.httpError) =
      (Except.ok none, 3) ∧
    upload_gps_data_run (some true) (fun _ => AttemptOutcome.respond 404) =
      (Except.ok (some ()), 1) ∧
    (handle_gps_pass (List.replicate 25 (⟨1, 2, 3, 4, 5⟩ : GpsFix))).saved =
      List.replicate 25 (⟨1, 2, 3, 4, 5⟩ : GpsFix) :=
  ⟨C7_theorem.2.2.1 none _ (by decide) (fun i _ => ⟨PyExn.httpError, rfl⟩),
   C7_theorem.2.2.2.1 (some true) _ 404 rfl,
   C7_theorem.2.2.2.2 _ (by simp)⟩

/-! ## C10: total-failure safety of the retry wrapper -/

/-- C10: for every network flag and every transport behaviour — including
one where every attempt raises — the decorated `upload_gps_data` returns
normally: the wrapper's `except` arms catch every exception of each of its
at most 3 attempts, total failure yields `Except.ok none` (the implicit
`return None`), and the caller cannot distinguish total failure from
success by the returned Python value. -/
theorem C10_theorem :
    (∀ (net : Option Bool) (tr : ℕ → AttemptOutcome),
        (upload_gps_data_run net tr).1 = Except.ok none ∨
        (upload_gps_data_run net tr).1 = Except.ok (some ())) ∧
    (∀ (net : Option Bool) (tr : ℕ → AttemptOutcome),
        net ≠ some false →
        (∀ i, ∃ e, tr i = AttemptOutcome.raises e) →
        (upload_gps_data_run net tr).1 = Except.ok none) ∧
    (∀ r r' : Option Unit, wrapperValue r = wrapperValue r') := by
  refine ⟨?_, ?_, fun _ _ => rfl⟩
  · intro net tr
    exact aretryRun_result (fun i => upload_attempt net (tr i)) UPLOAD_RETRY_TIMES 0
  · intro net tr hnet hall
    have := upload_allfail net tr hnet (fun i _ => hall i)
    rw [this]

/-- C10 witness: an all-raising transport with the flag unknown gives a
normal `None` return. -/
theorem C10_witness :
    (upload_gps_data_run none (fun _ => AttemptOutcome.raises PyExn.otherError)).1 =
      Except.ok none :=
  C10_theorem.2.1 none _ (by decide) (fun i => ⟨PyExn.otherError, rfl⟩)

/-! ## C1: fix aggregation -/

theorem isNone_false_iff {α : Type} (o : Option α) :
    o.isNone = false ↔ o.isSome = true := by
  cases o <;> simp

theorem dict_not_none_iff (d : GpsAccum) :
    dict_is_none d = false ↔
      d.latitude.isSome = true ∧ d.longitude.isSome = true ∧
      d.altitude.isSome = true ∧ d.speed.isSome = true ∧
      d.GPSTimestamp.isSome = true := by
  rcases d with ⟨la, lo, al, sp, ts⟩
  cases la <;> cases lo <;> cases al <;> cases sp <;> cases ts <;>
    simp [dict_is_none]

theorem step_latitude_mono (d : GpsAccum) (m : Sentence)
    (h : d.latitude.isSome = true) : (stepSentence d m).latitude.isSome = true := by
  cases m with
  | GGA a => simpa [stepSentence]
  | VTG s => simpa [stepSentence]
  | other => simpa [stepSentence]
  | RMC la lo t dt =>
      cases la <;> cases lo <;> cases t <;> cases dt <;> simp_all [stepSentence]

theorem step_longitude_mono (d : GpsAccum) (m : Sentence)
    (h : d.longitude.isSome = true) : (stepSentence d m).longitude.isSome = true := by
  cases m with
  | GGA a => simpa [stepSentence]
  | VTG s => simpa [stepSentence]
  | other => simpa [stepSentence]
  | RMC la lo t dt =>
      cases la <;> cases lo <;> cases t <;> cases dt <;> simp_all [stepSentence]

theorem step_timestamp_mono (d : GpsAccum) (m : Sentence)
    (h : d.GPSTimestamp.isSome = true) :
    (stepSentence d m).GPSTimestamp.isSome = true := by
  cases m with
  | GGA a => simpa [stepSentence]
  | VTG s => simpa [stepSentence]
  | other => simpa [stepSentence]
  | RMC la lo t dt =>
      cases la <;> cases lo <;> cases t <;> cases dt <;> simp_all [stepSentence]

theorem step_altitude_mono (d : GpsAccum) (m : Sentence)
    (hm : carriesPayload m = true)
    (h : d.altitude.isSome = true) : (stepSentence d m).altitude.isSome = true := by
  cases m with
  | GGA a => simpa [stepSentence, carriesPayload] using hm
  | VTG s => simpa [stepSentence]
  | other => simpa [stepSentence]
  | RMC la lo t dt =>
      cases la <;> cases lo <;> cases t <;> cases dt <;> simp_all [stepSentence]

theorem step_speed_mono (d : GpsAccum) (m : Sentence)
    (hm : carriesPayload m = true)
    (h : d.speed.isSome = true) : (stepSentence d m).speed.isSome = true := by
  cases m with
  | GGA a => simpa [stepSentence]
  | VTG s => simpa [stepSentence, carriesPayload] using hm
  | other => simpa [stepSentence]
  | RMC la lo t dt =>
      cases la <;> cases lo <;> cases t <;> cases dt <;> simp_all [stepSentence]

theorem step_suppliesPos (d : GpsAccum) (m : Sentence) (h : suppliesPos m = true) :
    (stepSentence d m).latitude.isSome = true ∧
    (stepSentence d m).longitude.isSome = true := by
  cases m with
  | GGA a => simp [suppliesPos] at h
  | VTG s => simp [suppliesPos] at h
  | other => simp [suppliesPos] at h
  | RMC la lo t dt =>
      cases la <;> cases lo <;> cases t <;> cases dt <;>
        simp_all [stepSentence, suppliesPos]

theorem step_suppliesTime (d : GpsAccum) (m : Sentence) (h : suppliesTime m = true) :
    (stepSentence d m).GPSTimestamp.isSome = true := by
  cases m with
  | GGA a => simp [suppliesTime] at h
  | VTG s => simp [suppliesTime] at h
  | other => simp [suppliesTime] at h
  | RMC la lo t dt =>
      cases la <;> cases lo <;> cases t <;> cases dt <;>
        simp_all [stepSentence, suppliesTime]

theorem step_suppliesAlt (d : GpsAccum) (m : Sentence) (h : suppliesAlt m = true) :
    (stepSentence d m).altitude.isSome = true := by
  cases m with
  | GGA a => cases a <;> simp_all [stepSentence, suppliesAlt]
  | VTG s => simp [suppliesAlt] at h
  | other => simp [suppliesAlt] at h
  | RMC la lo t dt => simp [suppliesAlt] at h

theorem step_suppliesSpeed (d : GpsAccum) (m : Sentence) (h : suppliesSpeed m = true) :
    (stepSentence d m).speed.isSome = true := by
  cases m with
  | GGA a => simp [suppliesSpeed] at h
  | VTG s => cases s <;> simp_all [stepSentence, suppliesSpeed]
  | other => simp [suppliesSpeed] at h
  | RMC la lo t dt => simp [suppliesSpeed] at h

/-- Completion of the aggregation loop: starting from any accumulator, if
every sentence of the remaining stream keeps its payload slots populated
and each still-missing field is supplied by some sentence of the stream,
the loop returns a complete record. -/
theorem get_gps_complete :
    ∀ (msgs : List Sentence) (d : GpsAccum),
    (∀ m ∈ msgs, carriesPayload m = true) →
    (d.latitude.isSome = true ∧ d.longitude.isSome = true ∨
      ∃ m ∈ msgs, suppliesPos m = true) →
    (d.GPSTimestamp.isSome = true ∨ ∃ m ∈ msgs, suppliesTime m = true) →
    (d.altitude.isSome = true ∨ ∃ m ∈ msgs, suppliesAlt m = true) →
    (d.speed.isSome = true ∨ ∃ m ∈ msgs, suppliesSpeed m = true) →
    ∃ r, get_gps_dataGo d msgs = some r ∧ dict_is_none r = false := by
  intro msgs
  induction msgs with
  | nil =>
      intro d _ h1 h2 h3 h4
      simp only [List.not_mem_nil, false_and, exists_false, or_false,
        exists_const] at h1 h2 h3 h4
      have hc : dict_is_none d = false :=
        (dict_not_none_iff d).mpr ⟨h1.1, h1.2, h3, h4, h2⟩
      exact ⟨d, by simp [get_gps_dataGo, hc], hc⟩
  | cons m ms ih =>
      intro d hgood h1 h2 h3 h4
      by_cases hc : dict_is_none d = false
      · exact ⟨d, by simp [get_gps_dataGo, hc], hc⟩
      · have hstep : get_gps_dataGo d (m :: ms) = get_gps_dataGo (stepSentence d m) ms := by
          simp [get_gps_dataGo, hc]
        rw [hstep]
        have hm : carriesPayload m = true := hgood m (List.mem_cons_self m ms)
        refine ih (stepSentence d m) (fun x hx => hgood x (List.mem_cons_of_mem m hx))
          ?_ ?_ ?_ ?_
        · rcases h1 with ⟨hla, hlo⟩ | ⟨m', hm', hsup⟩
          · exact Or.inl ⟨step_latitude_mono d m hla, step_longitude_mono d m hlo⟩
          · rcases List.mem_cons.mp hm' with rfl | hm'ms
            · exact Or.inl (step_suppliesPos d m' hsup)
            · exact Or.inr ⟨m', hm'ms, hsup⟩
        · rcases h2 with hts | ⟨m', hm', hsup⟩
          · exact Or.inl (step_timestamp_mono d m hts)
          · rcases List.mem_cons.mp hm' with rfl | hm'ms
            · exact Or.inl (step_suppliesTime d m' hsup)
            · exact Or.inr ⟨m', hm'ms, hsup⟩
        · rcases h3 with hal | ⟨m', hm', hsup⟩
          · exact Or.inl (step_altitude_mono d m hm hal)
          · rcases List.mem_cons.mp hm' with rfl | hm'ms
            · exact Or.inl (step_suppliesAlt d m' hsup)
            · exact Or.inr ⟨m', hm'ms, hsup⟩
        · rcases h4 with hsp | ⟨m', hm', hsup⟩
          · exact Or.inl (step_speed_mono d m hm hsp)
          · rcases List.mem_cons.mp hm' with rfl | hm'ms
            · exact Or.inl (step_suppliesSpeed d m' hsup)
            · exact Or.inr ⟨m', hm'ms, hsup⟩

theorem get_gps_dataGo_complete_of_some :
    ∀ (msgs : List Sentence) (d r : GpsAccum),
    get_gps_dataGo d msgs = some r → dict_is_none r = false := by
  intro msgs
  induction msgs with
  | nil =>
      intro d r h
      by_cases hc : dict_is_none d = false
      · simp [get_gps_dataGo, hc] at h; subst h; exact hc
      · simp [get_gps_dataGo, hc] at h
  | cons m ms ih =>
      intro d r h
      by_cases hc : dict_is_none d = false
      · simp [get_gps_dataGo, hc] at h; subst h; exact hc
      · rw [show get_gps_dataGo d (m :: ms) = get_gps_dataGo (stepSentence d m) ms by
          simp [get_gps_dataGo, hc]] at h
        exact ih (stepSentence d m) r h

/-- C1 counterexample: this sentence sequence collectively supplies all
five fields (the first GGA supplies altitude, the RMC supplies position and
timestamp, the VTG supplies speed), yet `get_gps_data` never returns a fix:
the second GGA, whose altitude field is absent, clears the accumulated
altitude, so the loop keeps consuming past the end of the sequence. -/
theorem C1_counterexample :
    (∃ m ∈ [Sentence.GGA (some 5), Sentence.GGA none,
        Sentence.RMC (some 1) (some 2) (some ⟨0⟩) (some ⟨0⟩),
        Sentence.VTG (some 3)], suppliesAlt m = true) ∧
    (∃ m ∈ [Sentence.GGA (some 5), Sentence.GGA none,
        Sentence.RMC (some 1) (some 2) (some ⟨0⟩) (some ⟨0⟩),
        Sentence.VTG (some 3)], suppliesPos m = true) ∧
    (∃ m ∈ [Sentence.GGA (some 5), Sentence.GGA none,
        Sentence.RMC (some 1) (some 2) (some ⟨0⟩) (some ⟨0⟩),
        Sentence.VTG (some 3)], suppliesTime m = true) ∧
    (∃ m ∈ [Sentence.GGA (some 5), Sentence.GGA none,
        Sentence.RMC (some 1) (some 2) (some ⟨0⟩) (some ⟨0⟩),
        Sentence.VTG (some 3)], suppliesSpeed m = true) ∧
    get_gps_data [Sentence.GGA (some 5), Sentence.GGA none,
        Sentence.RMC (some 1) (some 2) (some ⟨0⟩) (some ⟨0⟩),
        Sentence.VTG (some 3)] = none := by
  decide

/-- C1 (amended): over any sentence sequence in which every altitude
sentence carries an altitude and every speed sentence carries a speed (a
GGA or VTG with an absent payload clears the corresponding accumulated
field), if the sequence, in any order, collectively supplies position,
timestamp, altitude and speed, `get_gps_data` returns exactly one record
with all five fields populated.  Moreover: latitude and longitude are set,
rounded to 7 decimal places, exactly by a position sentence carrying both
coordinates and are untouched when either coordinate is absent; the
timestamp is the epoch integer combining the time-of-day and date fields
and is set exactly when both are present; speed comes from a
speed-over-ground sentence; any other sentence type leaves the accumulator
unchanged; and the function never returns a record with a field unset. -/
theorem C1_theorem :
    (∀ msgs : List Sentence,
        (∀ m ∈ msgs, carriesPayload m = true) →
        (∃ m ∈ msgs, suppliesPos m = true) →
        (∃ m ∈ msgs, suppliesTime m = true) →
        (∃ m ∈ msgs, suppliesAlt m = true) →
        (∃ m ∈ msgs, suppliesSpeed m = true) →
        ∃ r, get_gps_data msgs = some r ∧ dict_is_none r = false) ∧
    (∀ (msgs : List Sentence) (r : GpsAccum),
        get_gps_data msgs = some r → dict_is_none r = false) ∧
    (∀ d : GpsAccum, stepSentence d Sentence.other = d) ∧
    (∀ (d : GpsAccum) (a b : ℚ) (t : Option PyTime) (dt : Option PyDate),
        (stepSentence d (Sentence.RMC (some a) (some b) t dt)).latitude =
          some (pyRound7 a) ∧
        (stepSentence d (Sentence.RMC (some a) (some b) t dt)).longitude =
          some (pyRound7 b)) ∧
    (∀ (d : GpsAccum) (lo : Option ℚ) (t : Option PyTime) (dt : Option PyDate),
        (stepSentence d (Sentence.RMC none lo t dt)).latitude = d.latitude ∧
        (stepSentence d (Sentence.RMC none lo t dt)).longitude = d.longitude) ∧
    (∀ (d : GpsAccum) (la : Option ℚ) (t : Option PyTime) (dt : Option PyDate),
        (stepSentence d (Sentence.RMC la none t dt)).latitude = d.latitude ∧
        (stepSentence d (Sentence.RMC la none t dt)).longitude = d.longitude) ∧
    (∀ (d : GpsAccum) (la lo : Option ℚ) (tt : PyTime) (dd : PyDate),
        (stepSentence d (Sentence.RMC la lo (some tt) (some dd))).GPSTimestamp =
          some (get_timestamp tt dd)) ∧
    (∀ (d : GpsAccum) (la lo : Option ℚ) (dt : Option PyDate),
        (stepSentence d (Sentence.RMC la lo none dt)).GPSTimestamp =
          d.GPSTimestamp) ∧
    (∀ (d : GpsAccum) (la lo : Option ℚ) (t : Option PyTime),
        (stepSentence d (Sentence.RMC la lo t none)).GPSTimestamp =
          d.GPSTimestamp) ∧
    (∀ (d : GpsAccum) (s : Option ℚ),
        (stepSentence d (Sentence.VTG s)).speed = s) ∧
    (∀ (d : GpsAccum) (a : Option ℚ),
        (stepSentence d (Sentence.GGA a)).altitude = a) := by
  refine ⟨?_, ?_, ?_, ?_, ?_, ?_, ?_, ?_, ?_, ?_, ?_⟩
  · intro msgs hgood h1 h2 h3 h4
    exact get_gps_complete msgs initAccum hgood (Or.inr h1) (Or.inr h2)
      (Or.inr h3) (Or.inr h4)
  · intro msgs r h
    exact get_gps_dataGo_complete_of_some msgs initAccum r h
  · intro d; rfl
  · intro d a b t dt; cases t <;> cases dt <;> simp [stepSentence]
  · intro d lo t dt; cases lo <;> cases t <;> cases dt <;> simp [stepSentence]
  · intro d la t dt; cases la <;> cases t <;> cases dt <;> simp [stepSentence]
  · intro d la lo tt dd; cases la <;> cases lo <;> simp [stepSentence]
  · intro d la lo dt; cases la <;> cases lo <;> cases dt <;> simp [stepSentence]
  · intro d la lo t; cases la <;> cases lo <;> cases t <;> simp [stepSentence]
  · intro d s; rfl
  · intro d a; rfl

/-- C1 witness: a concrete covering sequence — one RMC with position and
time, one GGA with altitude, one VTG with speed — produces a complete
record. -/
theorem C1_witness :
    ∃ r, get_gps_data [Sentence.RMC (some 1) (some 2) (some ⟨30⟩) (some ⟨40⟩),
        Sentence.GGA (some 5), Sentence.VTG (some 3)] = some r ∧
      dict_is_none r = false :=
  C1_theorem.1 _ (by decide) (by decide) (by decide) (by decide) (by decide)

/-! ## Durable-store serialization lemmas -/

theorem lDigitsVal_natDigitsRevGo :
    ∀ fuel n, n ≤ fuel → lDigitsVal (natDigitsRevGo fuel n) = n := by
  intro fuel
  induction fuel with
  | zero =>
      intro n h
      have hn : n = 0 := by omega
      subst hn; rfl
  | succ f ih =>
      intro n h
      cases n with
      | zero => rfl
      | succ k =>
          have hdiv : (k + 1) / 10 ≤ f := by omega
          simp only [natDigitsRevGo, lDigitsVal, ih _ hdiv]
          omega

theorem natDigitsRevGo_lt10 :
    ∀ fuel n d, d ∈ natDigitsRevGo fuel n → d < 10 := by
  intro fuel
  induction fuel with
  | zero => intro n d h; simp [natDigitsRevGo] at h
  | succ f ih =>
      intro n d h
      cases n with
      | zero => simp [natDigitsRevGo] at h
      | succ k =>
          simp only [natDigitsRevGo, List.mem_cons] at h
          rcases h with rfl | h
          · exact Nat.mod_lt _ (by norm_num)
          · exact ih _ d h

theorem digitChar_toNat {d : ℕ} (h : d < 10) : (digitChar d).toNat - 48 = d := by
  interval_cases d <;> decide

theorem digitChar_isDigit {d : ℕ} (h : d < 10) : charIsDigit (digitChar d) = true := by
  interval_cases d <;> decide

theorem digitsVal_concat (xs : List Char) (c : Char) :
    digitsVal (xs ++ [c]) = 10 * digitsVal xs + (c.toNat - 48) := by
  simp [digitsVal, List.foldl_append]

theorem digitsVal_rev_map :
    ∀ l : List ℕ, (∀ d ∈ l, d < 10) →
      digitsVal ((l.map digitChar).reverse) = lDigitsVal l := by
  intro l
  induction l with
  | nil => intro _; rfl
  | cons d l ih =>
      intro h
      have hd : d < 10 := h d (List.mem_cons_self d l)
      simp only [List.map_cons, List.reverse_cons, digitsVal_concat,
        ih (fun x hx => h x (List.mem_cons_of_mem d hx)), lDigitsVal,
        digitChar_toNat hd]
      ring

theorem natStrChars_ne_nil (n : ℕ) : natStrChars n ≠ [] := by
  cases n with
  | zero => decide
  | succ k =>
      simp only [natStrChars, if_neg (Nat.succ_ne_zero k), natDigitsRev, natDigitsRevGo]
      simp

theorem natStrChars_allDigits (n : ℕ) : allDigits (natStrChars n) = true := by
  cases n with
  | zero => decide
  | succ k =>
      simp only [natStrChars, if_neg (Nat.succ_ne_zero k), allDigits, List.all_eq_true]
      intro c hc
      rw [List.mem_reverse, List.mem_map] at hc
      obtain ⟨d, hd, rfl⟩ := hc
      exact digitChar_isDigit (natDigitsRevGo_lt10 _ _ d hd)

theorem natStrChars_val (n : ℕ) : digitsVal (natStrChars n) = n := by
  cases n with
  | zero => decide
  | succ k =>
      simp only [natStrChars, if_neg (Nat.succ_ne_zero k), natDigitsRev]
      rw [digitsVal_rev_map _ (fun d hd => natDigitsRevGo_lt10 _ _ d hd)]
      exact lDigitsVal_natDigitsRevGo _ _ le_rfl

theorem allDigits_mem {cs : List Char} (h : allDigits cs = true) :
    ∀ c ∈ cs, charIsDigit c = true := by
  simpa [allDigits, List.all_eq_true] using h

theorem charIsDigit_ne_dash {c : Char} (h : charIsDigit c = true) : c ≠ '-' := by
  intro h'
  subst h'
  exact absurd h (by decide)

theorem head_digits_ne_dash {cs : List Char} (h : allDigits cs = true) :
    cs.head? ≠ some '-' := by
  cases cs with
  | nil => simp
  | cons c t =>
      simp only [List.head?_cons, ne_eq, Option.some.injEq]
      exact charIsDigit_ne_dash (allDigits_mem h c (List.mem_cons_self c t))

theorem digitsVal_replicate_zero (j : ℕ) (cs : List Char) :
    digitsVal (List.replicate j '0' ++ cs) = digitsVal cs := by
  induction j with
  | zero => rfl
  | succ i ih =>
      simp only [List.replicate_succ, List.cons_append, digitsVal, List.foldl_cons]
      have hz : 10 * 0 + ('0'.toNat - 48) = 0 := by decide
      rw [hz]
      exact ih

theorem natDigitsRevGo_length :
    ∀ fuel n k, n ≤ fuel → n < 10 ^ k → (natDigitsRevGo fuel n).length ≤ k := by
  intro fuel
  induction fuel with
  | zero =>
      intro n k h _
      have hn : n = 0 := by omega
      subst hn; simp [natDigitsRevGo]
  | succ f ih =>
      intro n k h hk
      cases n with
      | zero => simp [natDigitsRevGo]
      | succ m =>
          by_cases hz : (m + 1) / 10 = 0
          · have hk1 : 1 ≤ k := by
              by_contra hk0
              have hpow : (10 : ℕ) ^ k ≤ 1 := by
                have hk00 : k = 0 := by omega
                simp [hk00]
              omega
            simp only [natDigitsRevGo, List.length_cons, hz]
            have : (natDigitsRevGo f 0).length = 0 := by
              cases f <;> simp [natDigitsRevGo]
            omega
          · have h10 : 10 ≤ m + 1 := by omega
            have hk2 : 1 < k := by
              by_contra hk0
              have hpow : (10 : ℕ) ^ k ≤ 10 := by
                have hk01 : k = 0 ∨ k = 1 := by omega
                rcases hk01 with rfl | rfl <;> norm_num
              omega
            obtain ⟨k', rfl⟩ : ∃ k', k = k' + 1 := ⟨k - 1, by omega⟩
            have hdivlt : (m + 1) / 10 < 10 ^ k' := by
              rw [Nat.div_lt_iff_lt_mul (by norm_num : (0:ℕ) < 10)]
              calc m + 1 < 10 ^ (k' + 1) := hk
                _ = 10 ^ k' * 10 := by ring
            have hdivle : (m + 1) / 10 ≤ f := by omega
            simp only [natDigitsRevGo, List.length_cons]
            have := ih _ k' hdivle hdivlt
            omega

theorem natStrChars_length_le {n k : ℕ} (h : n < 10 ^ k) (hk : 0 < k) :
    (natStrChars n).length ≤ k := by
  cases n with
  | zero => simpa [natStrChars] using hk
  | succ m =>
      simp only [natStrChars, if_neg (Nat.succ_ne_zero m), List.length_reverse,
        List.length_map]
      exact natDigitsRevGo_length _ _ k le_rfl h

theorem fracPadChars_allDigits (m k : ℕ) : allDigits (fracPadChars m k) = true := by
  simp only [fracPadChars, allDigits, List.all_append, Bool.and_eq_true]
  constructor
  · simp only [List.all_eq_true]
    intro c hc
    rw [List.eq_of_mem_replicate hc]
    decide
  · exact natStrChars_allDigits m

theorem fracPadChars_length {m k : ℕ} (hm : m < 10 ^ k) (hk : 0 < k) :
    (fracPadChars m k).length = k := by
  have := natStrChars_length_le hm hk
  simp only [fracPadChars, List.length_append, List.length_replicate]
  omega

theorem fracPadChars_val (m k : ℕ) : digitsVal (fracPadChars m k) = m := by
  rw [fracPadChars, digitsVal_replicate_zero, natStrChars_val]

theorem takeWhile_append_all {p : Char → Bool} :
    ∀ (a b : List Char), (∀ c ∈ a, p c = true) →
      List.takeWhile p (a ++ b) = a ++ List.takeWhile p b := by
  intro a
  induction a with
  | nil => intro b _; rfl
  | cons c t ih =>
      intro b h
      simp only [List.cons_append, List.takeWhile_cons,
        h c (List.mem_cons_self c t), if_true]
      rw [ih b (fun x hx => h x (List.mem_cons_of_mem c hx))]

theorem dropWhile_append_all {p : Char → Bool} :
    ∀ (a b : List Char), (∀ c ∈ a, p c = true) →
      List.dropWhile p (a ++ b) = List.dropWhile p b := by
  intro a
  induction a with
  | nil => intro b _; rfl
  | cons c t ih =>
      intro b h
      simp only [List.cons_append, List.dropWhile_cons,
        h c (List.mem_cons_self c t), if_true]
      exact ih b (fun x hx => h x (List.mem_cons_of_mem c hx))

theorem dropWhile_all_neg {p : Char → Bool} (cs : List Char)
    (h : ∀ c ∈ cs, p c = false) : List.dropWhile p cs = cs := by
  cases cs with
  | nil => rfl
  | cons c t =>
      simp only [List.dropWhile_cons, h c (List.mem_cons_self c t)]
      simp

theorem pyStrip_no_space (cs : List Char)
    (h : ∀ c ∈ cs, pyIsSpace c = false) : pyStrip cs = cs := by
  unfold pyStrip
  rw [dropWhile_all_neg cs h,
    dropWhile_all_neg cs.reverse (fun c hc => h c (List.mem_reverse.mp hc)),
    List.reverse_reverse]

theorem pyStrip_body_newline (body : List Char) (hne : body ≠ [])
    (h : ∀ c ∈ body, pyIsSpace c = false) :
    pyStrip (body ++ ['\n']) = body := by
  obtain ⟨c, t, rfl⟩ := List.exists_cons_of_ne_nil hne
  unfold pyStrip
  have h1 : List.dropWhile pyIsSpace (c :: t ++ ['\n']) = c :: t ++ ['\n'] := by
    simp only [List.cons_append, List.dropWhile_cons,
      h c (List.mem_cons_self c t)]
    simp
  rw [h1]
  have h2 : (c :: t ++ ['\n']).reverse = '\n' :: (c :: t).reverse := by
    simp
  rw [h2]
  have h3 : List.dropWhile pyIsSpace ('\n' :: (c :: t).reverse) =
      List.dropWhile pyIsSpace ((c :: t).reverse) := by
    simp only [List.dropWhile_cons]
    norm_num [pyIsSpace]
  rw [h3, dropWhile_all_neg _ (fun x hx => h x (List.mem_reverse.mp hx)),
    List.reverse_reverse]

theorem splitOnComma_no_comma :
    ∀ a : List Char, (∀ c ∈ a, c ≠ ',') → splitOnComma a = [a] := by
  intro a
  induction a with
  | nil => intro _; rfl
  | cons c t ih =>
      intro h
      simp only [splitOnComma, if_neg (h c (List.mem_cons_self c t)),
        ih (fun x hx => h x (List.mem_cons_of_mem c hx))]
      rfl

theorem splitOnComma_append :
    ∀ (a b : List Char), (∀ c ∈ a, c ≠ ',') →
      splitOnComma (a ++ ',' :: b) = a :: splitOnComma b := by
  intro a
  induction a with
  | nil =>
      intro b _
      simp [splitOnComma]
  | cons c t ih =>
      intro b h
      have ht := ih b (fun x hx => h x (List.mem_cons_of_mem c hx))
      simp only [List.cons_append, splitOnComma, List.append_eq,
        if_neg (h c (List.mem_cons_self c t)), ht]
      rfl

theorem charIsDigit_not_space {c : Char} (h : charIsDigit c = true) :
    pyIsSpace c = false := by
  simp only [charIsDigit, Bool.and_eq_true, decide_eq_true_eq] at h
  obtain ⟨h1, _⟩ := h
  simp only [pyIsSpace, Bool.or_eq_false_iff, beq_eq_false_iff_ne, ne_eq]
  refine ⟨⟨⟨⟨⟨?_, ?_⟩, ?_⟩, ?_⟩, ?_⟩, ?_⟩ <;>
    · rintro rfl; exact absurd h1 (by decide)

theorem goodChar_not_space {c : Char} (h : goodChar c = true) :
    pyIsSpace c = false := by
  simp only [goodChar, Bool.or_eq_true, beq_iff_eq] at h
  rcases h with (hd | rfl) | rfl
  · exact charIsDigit_not_space hd
  · decide
  · decide

theorem goodChar_ne_comma {c : Char} (h : goodChar c = true) : c ≠ ',' := by
  rintro rfl
  exact absurd h (by decide)

theorem goodChar_of_digit {c : Char} (h : charIsDigit c = true) :
    goodChar c = true := by
  simp [goodChar, h]

theorem natStrChars_good (n : ℕ) : ∀ c ∈ natStrChars n, goodChar c = true :=
  fun c hc => goodChar_of_digit (allDigits_mem (natStrChars_allDigits n) c hc)

theorem intStrChars_good (i : ℤ) : ∀ c ∈ intStrChars i, goodChar c = true := by
  intro c hc
  unfold intStrChars at hc
  by_cases h : i < 0
  · rw [if_pos h, List.mem_cons] at hc
    rcases hc with rfl | hc
    · decide
    · exact natStrChars_good _ c hc
  · rw [if_neg h] at hc
    exact natStrChars_good _ c hc

theorem fracPadChars_good (m k : ℕ) : ∀ c ∈ fracPadChars m k, goodChar c = true :=
  fun c hc => goodChar_of_digit (allDigits_mem (fracPadChars_allDigits m k) c hc)

theorem floatStrAbs_good (q : ℚ) : ∀ c ∈ floatStrAbs q, goodChar c = true := by
  intro c hc
  unfold floatStrAbs at hc
  by_cases h : decExp q = 0
  · rw [if_pos h, List.mem_append] at hc
    rcases hc with hc | hc
    · exact natStrChars_good _ c hc
    · have : c = '.' ∨ c = '0' := by simpa using hc
      rcases this with rfl | rfl <;> decide
  · rw [if_neg h, List.mem_append] at hc
    rcases hc with hc | hc
    · exact natStrChars_good _ c hc
    · rcases List.mem_cons.mp hc with rfl | hc
      · decide
      · exact fracPadChars_good _ _ c hc

theorem floatStrChars_good (q : ℚ) : ∀ c ∈ floatStrChars q, goodChar c = true := by
  intro c hc
  unfold floatStrChars at hc
  by_cases h : q < 0
  · rw [if_pos h] at hc
    rcases List.mem_cons.mp hc with rfl | hc
    · decide
    · exact floatStrAbs_good _ c hc
  · rw [if_neg h] at hc
    exact floatStrAbs_good _ c hc

theorem pyNatDigits_natStr (n : ℕ) : pyNatDigits? (natStrChars n) = some n := by
  have hne : (natStrChars n).isEmpty = false := by
    rw [Bool.eq_false_iff]
    intro h
    exact natStrChars_ne_nil n (List.isEmpty_iff.mp h)
  simp [pyNatDigits?, hne, natStrChars_allDigits, natStrChars_val]

theorem pyInt_intStr (i : ℤ) : pyInt? (intStrChars i) = some i := by
  by_cases h : i < 0
  · have h1 : intStrChars i = '-' :: natStrChars i.natAbs := if_pos h
    rw [h1]
    unfold pyInt?
    rw [if_pos (show (('-' :: natStrChars i.natAbs).head?) = some '-' from rfl)]
    simp only [List.drop_one, List.tail_cons, pyNatDigits_natStr]
    show some (-(i.natAbs : ℤ)) = some i
    exact congrArg some (by omega)
  · have h1 : intStrChars i = natStrChars i.natAbs := if_neg h
    rw [h1]
    have h2 : (natStrChars i.natAbs).head? ≠ some '-' :=
      head_digits_ne_dash (natStrChars_allDigits _)
    unfold pyInt?
    rw [if_neg h2]
    simp only [pyNatDigits_natStr]
    show some ((i.natAbs : ℤ)) = some i
    exact congrArg some (by omega)

theorem q_eq_num_of_den_one {q : ℚ} (h : q.den = 1) : (q.num : ℚ) = q := by
  conv_rhs => rw [← Rat.num_div_den q]
  rw [h]
  simp

theorem decExpGo_neg (q : ℚ) : ∀ f e, decExpGo (-q) e f = decExpGo q e f := by
  intro f
  induction f with
  | zero => intro e; rfl
  | succ g ih =>
      intro e
      have hden : ((-q) * 10 ^ e).den = (q * 10 ^ e).den := by
        rw [show (-q) * 10 ^ e = -(q * 10 ^ e) by ring, Rat.neg_den]
      simp only [decExpGo, hden, ih]

theorem decExp_neg (q : ℚ) : decExp (-q) = decExp q := by
  unfold decExp
  rw [Rat.neg_den, decExpGo_neg]

theorem IsDecimal.neg {q : ℚ} (h : IsDecimal q) : IsDecimal (-q) := by
  unfold IsDecimal at h ⊢
  rw [decExp_neg, show (-q) * 10 ^ decExp q = -(q * 10 ^ decExp q) by ring,
    Rat.neg_den]
  exact h

theorem charIsDigit_dot : charIsDigit '.' = false := by decide

theorem natStrChars_isEmpty (n : ℕ) : (natStrChars n).isEmpty = false := by
  rw [Bool.eq_false_iff]
  intro h
  exact natStrChars_ne_nil n (List.isEmpty_iff.mp h)

theorem floatStrAbs_parse {q : ℚ} (hq : IsDecimal q) (h0 : 0 ≤ q) :
    pyFloatAbs? (floatStrAbs q) = some q := by
  unfold IsDecimal at hq
  obtain ⟨k, hkd⟩ : ∃ k, decExp q = k := ⟨_, rfl⟩
  rw [hkd] at hq
  obtain ⟨m, hmd⟩ : ∃ m, (q * 10 ^ k).num.natAbs = m := ⟨_, rfl⟩
  have hN : 0 ≤ (q * 10 ^ k).num := Rat.num_nonneg.mpr (by positivity)
  have hqm : (m : ℚ) = q * 10 ^ k := by
    have h1 : ((m : ℤ) : ℚ) = ((q * 10 ^ k).num : ℚ) := by
      rw [← hmd, Int.natAbs_of_nonneg hN]
    push_cast at h1
    exact h1.trans (q_eq_num_of_den_one hq)
  have hdig : ∀ n : ℕ, ∀ c ∈ natStrChars n, charIsDigit c = true :=
    fun n => allDigits_mem (natStrChars_allDigits n)
  have hfl0 : floatStrAbs q =
      if k = 0 then natStrChars m ++ ['.', '0']
      else natStrChars (m / 10 ^ k) ++ '.' :: fracPadChars (m % 10 ^ k) k := by
    simp only [floatStrAbs, hkd, hmd]
  by_cases hk0 : k = 0
  · rw [hfl0, if_pos hk0]
    have ht1 : List.takeWhile charIsDigit ['.', '0'] = [] := by decide
    have ht2 : List.dropWhile charIsDigit ['.', '0'] = ['.', '0'] := by decide
    simp only [pyFloatAbs?]
    rw [takeWhile_append_all _ _ (hdig m), dropWhile_append_all _ _ (hdig m),
      ht1, ht2]
    simp only [List.append_nil, List.isEmpty_cons, List.head?_cons,
      Bool.false_eq_true, if_false, if_pos rfl, List.drop_one, List.tail_cons]
    rw [if_pos (show allDigits ['0'] = true by decide)]
    simp only [natStrChars_isEmpty, Bool.false_and, Bool.false_eq_true, if_false]
    rw [natStrChars_val, show digitsVal ['0'] = 0 from by decide]
    have hqm' : (q : ℚ) = (m : ℚ) := by
      rw [hqm, hk0]
      ring
    rw [hqm']
    norm_num
  · have hkpos : 0 < k := Nat.pos_of_ne_zero hk0
    have hmod : m % 10 ^ k < 10 ^ k := Nat.mod_lt _ (by positivity)
    rw [hfl0, if_neg hk0]
    have ht1 : List.takeWhile charIsDigit ('.' :: fracPadChars (m % 10 ^ k) k) = [] := by
      simp [List.takeWhile_cons, charIsDigit_dot]
    have ht2 : List.dropWhile charIsDigit ('.' :: fracPadChars (m % 10 ^ k) k) =
        '.' :: fracPadChars (m % 10 ^ k) k := by
      simp [List.dropWhile_cons, charIsDigit_dot]
    simp only [pyFloatAbs?]
    rw [takeWhile_append_all _ _ (hdig _), dropWhile_append_all _ _ (hdig _),
      ht1, ht2]
    simp only [List.append_nil, List.isEmpty_cons, List.head?_cons,
      Bool.false_eq_true, if_false, if_pos rfl, List.drop_one, List.tail_cons]
    rw [if_pos (fracPadChars_allDigits _ _)]
    simp only [natStrChars_isEmpty, Bool.false_and, Bool.false_eq_true, if_false]
    rw [natStrChars_val, fracPadChars_val, fracPadChars_length hmod hkpos]
    have hsplit : (10 : ℚ) ^ k * ((m / 10 ^ k : ℕ) : ℚ) + ((m % 10 ^ k : ℕ) : ℚ) =
        (m : ℚ) := by
      exact_mod_cast congrArg (fun x : ℕ => (x : ℚ)) (Nat.div_add_mod m (10 ^ k))
    have hq10 : (10 : ℚ) ^ k ≠ 0 := by positivity
    have hqv : (q : ℚ) = (m : ℚ) / 10 ^ k := by
      field_simp [hqm]
    rw [hqv, ← hsplit]
    field_simp
    ring

theorem floatStrAbs_head (q : ℚ) : (floatStrAbs q).head? ≠ some '-' := by
  unfold floatStrAbs
  by_cases h : decExp q = 0
  · rw [if_pos h]
    obtain ⟨c, t, hct⟩ :=
      List.exists_cons_of_ne_nil (natStrChars_ne_nil ((q * 10 ^ decExp q).num.natAbs))
    rw [hct, List.cons_append, List.head?_cons]
    intro he
    exact charIsDigit_ne_dash
      (allDigits_mem (hct ▸ natStrChars_allDigits _) c (List.mem_cons_self c t))
      (Option.some.inj he)
  · rw [if_neg h]
    obtain ⟨c, t, hct⟩ :=
      List.exists_cons_of_ne_nil
        (natStrChars_ne_nil ((q * 10 ^ decExp q).num.natAbs / 10 ^ decExp q))
    rw [hct, List.cons_append, List.head?_cons]
    intro he
    exact charIsDigit_ne_dash
      (allDigits_mem (hct ▸ natStrChars_allDigits _) c (List.mem_cons_self c t))
      (Option.some.inj he)

theorem pyFloat_floatStr {q : ℚ} (hq : IsDecimal q) :
    pyFloat? (floatStrChars q) = some q := by
  by_cases h : q < 0
  · have h1 : floatStrChars q = '-' :: floatStrAbs (-q) := if_pos h
    rw [h1]
    unfold pyFloat?
    rw [if_pos (show (('-' :: floatStrAbs (-q)).head?) = some '-' from rfl)]
    simp only [List.drop_one, List.tail_cons]
    rw [floatStrAbs_parse hq.neg (by linarith)]
    simp
  · have h1 : floatStrChars q = floatStrAbs q := if_neg h
    rw [h1]
    unfold pyFloat?
    rw [if_neg (floatStrAbs_head q)]
    exact floatStrAbs_parse hq (le_of_not_lt h)

/-- The serialized record body contains no whitespace. -/
theorem saveLineChars_no_space (f : GpsFix) :
    ∀ c ∈ saveLineChars f, pyIsSpace c = false := by
  intro c hc
  unfold saveLineChars at hc
  have hcomma : pyIsSpace ',' = false := by decide
  simp only [List.mem_append, List.mem_cons] at hc
  rcases hc with hc | rfl | hc
  · exact goodChar_not_space (intStrChars_good _ c hc)
  · exact hcomma
  · rcases hc with hc | rfl | hc
    · exact goodChar_not_space (floatStrChars_good _ c hc)
    · exact hcomma
    · rcases hc with hc | rfl | hc
      · exact goodChar_not_space (floatStrChars_good _ c hc)
      · exact hcomma
      · rcases hc with hc | rfl | hc
        · exact goodChar_not_space (floatStrChars_good _ c hc)
        · exact hcomma
        · exact goodChar_not_space (floatStrChars_good _ c hc)

theorem saveLineChars_ne_nil (f : GpsFix) : saveLineChars f ≠ [] := by
  unfold saveLineChars intStrChars
  by_cases h : f.GPSTimestamp < 0
  · rw [if_pos h]; simp
  · rw [if_neg h]
    obtain ⟨c, t, hct⟩ := List.exists_cons_of_ne_nil (natStrChars_ne_nil _)
    rw [hct]
    simp

theorem splitOnComma_saveLine (f : GpsFix) :
    splitOnComma (saveLineChars f) =
      [intStrChars f.GPSTimestamp, floatStrChars f.latitude,
        floatStrChars f.longitude, floatStrChars f.altitude,
        floatStrChars f.speed] := by
  unfold saveLineChars
  rw [splitOnComma_append _ _
      (fun c hc => goodChar_ne_comma (intStrChars_good _ c hc)),
    splitOnComma_append _ _
      (fun c hc => goodChar_ne_comma (floatStrChars_good _ c hc)),
    splitOnComma_append _ _
      (fun c hc => goodChar_ne_comma (floatStrChars_good _ c hc)),
    splitOnComma_append _ _
      (fun c hc => goodChar_ne_comma (floatStrChars_good _ c hc)),
    splitOnComma_no_comma _
      (fun c hc => goodChar_ne_comma (floatStrChars_good _ c hc))]

/-- Round trip of one record: parsing the exact line `save_gps_data` wrote
recovers the fix, field for field. -/
theorem parseRecord_save (f : GpsFix)
    (h1 : IsDecimal f.latitude) (h2 : IsDecimal f.longitude)
    (h3 : IsDecimal f.altitude) (h4 : IsDecimal f.speed) :
    parseRecord (save_gps_line f) = Except.ok f := by
  unfold parseRecord save_gps_line
  rw [pyStrip_body_newline _ (saveLineChars_ne_nil f) (saveLineChars_no_space f),
    splitOnComma_saveLine]
  simp only [List.getElem?_cons_zero, List.getElem?_cons_succ, pyInt_intStr,
    pyFloat_floatStr h1, pyFloat_floatStr h2, pyFloat_floatStr h3,
    pyFloat_floatStr h4]

theorem parseLines_save :
    ∀ fixes : List GpsFix, (∀ f ∈ fixes, DecimalFix f) →
      parseLines (fixes.map save_gps_line) = Except.ok fixes := by
  intro fixes
  induction fixes with
  | nil => intro _; rfl
  | cons f fs ih =>
      intro h
      obtain ⟨h1, h2, h3, h4⟩ := h f (List.mem_cons_self f fs)
      simp only [List.map_cons, parseLines, parseRecord_save f h1 h2 h3 h4,
        ih (fun x hx => h x (List.mem_cons_of_mem f hx))]
      rfl

/-! ## C9: save/read round trip -/

/-- C9: appending any sequence of complete fixes with `save_gps_data`
writes one comma-separated text line per fix in the fixed order
`GPSTimestamp,latitude,longitude,altitude,speed`, and `read_gps_data`
applied to the resulting file returns exactly those records, field values
equal, in the original append order. -/
theorem C9_theorem (fixes : List GpsFix) (h : ∀ f ∈ fixes, DecimalFix f) :
    read_gps_data (some (fixes.map save_gps_line)) = Except.ok (some fixes) := by
  simp only [read_gps_data, parseLines_save fixes h]
  rfl

section WitnessEvaluation

attribute [local semireducible] Rat.add Rat.mul Rat.inv Rat.sub Rat.ofScientific

/-- C9 witness: the spec's end-to-end example fix round-trips through the
store. -/
theorem C9_witness :
    read_gps_data
        (some ([(⟨1700000000, 230146594 / 10 ^ 7, 1130396141 / 10 ^ 7, 10, 12⟩ :
          GpsFix)].map save_gps_line)) =
      Except.ok (some [(⟨1700000000, 230146594 / 10 ^ 7, 1130396141 / 10 ^ 7, 10, 12⟩ :
        GpsFix)]) :=
  C9_theorem _ (by decide)

/-! ## C3: startup replay -/

theorem uploadChunks_payload :
    ∀ (nPer : ℕ) (ds lst : List GpsFix),
      callsPayload (uploadChunks nPer lst ds) = lst ++ ds := by
  intro nPer ds
  induction ds with
  | nil =>
      intro lst
      by_cases h : lst.isEmpty
      · rw [List.isEmpty_iff] at h
        subst h
        rfl
      · simp only [uploadChunks, h, Bool.false_eq_true, if_false]
        simp [callsPayload, callPayload]
  | cons d ds ih =>
      intro lst
      by_cases h : nPer ≤ (lst ++ [d]).length
      · simp only [uploadChunks, if_pos h, callsPayload, List.map_cons,
          List.flatten_cons, callPayload]
        have := ih []
        simp only [callsPayload] at this
        rw [this]
        simp
      · simp only [uploadChunks, if_neg h, ih (lst ++ [d])]
        simp

theorem uploadChunks_batches :
    ∀ (nPer : ℕ) (ds lst : List GpsFix) (c : UploadCall),
      c ∈ uploadChunks nPer lst ds → ∃ l, c = UploadCall.batch l := by
  intro nPer ds
  induction ds with
  | nil =>
      intro lst c hc
      by_cases h : lst.isEmpty
      · simp [uploadChunks, h] at hc
      · simp only [uploadChunks, h, Bool.false_eq_true, if_false,
          List.mem_singleton] at hc
        exact ⟨lst, hc⟩
  | cons d ds ih =>
      intro lst c hc
      by_cases h : nPer ≤ (lst ++ [d]).length
      · simp only [uploadChunks, if_pos h, List.mem_cons] at hc
        rcases hc with rfl | hc
        · exact ⟨lst ++ [d], rfl⟩
        · exact ih [] c hc
      · simp only [uploadChunks, if_neg h] at hc
        exact ih (lst ++ [d]) c hc

/-- C3: startup replay reads the current day's store partition and submits
for upload exactly the persisted records (the store format has no
delivery-state field, so no record is ever confirmed sent and all of them
qualify), in order, as batch calls; and when the store file for the day
does not exist, replay performs no uploads and returns normally instead of
raising. -/
theorem C3_theorem :
    upload_store_gps_data none = Except.ok [] ∧
    (∀ (lines : List (List Char)) (datas : List GpsFix),
        read_gps_data (some lines) = Except.ok (some datas) →
        upload_store_gps_data (some lines) =
          Except.ok (uploadChunks NUM_PER_UPLOAD [] datas) ∧
        callsPayload (uploadChunks NUM_PER_UPLOAD [] datas) = datas ∧
        ∀ c ∈ uploadChunks NUM_PER_UPLOAD [] datas, ∃ l, c = UploadCall.batch l) := by
  refine ⟨rfl, ?_⟩
  intro lines datas hread
  refine ⟨?_, ?_, ?_⟩
  · unfold upload_store_gps_data
    rw [hread]
  · exact uploadChunks_payload NUM_PER_UPLOAD datas []
  · exact uploadChunks_batches NUM_PER_UPLOAD datas []

/-- C3 witness: a one-record store file replays as a single batch call
covering exactly that record. -/
theorem C3_witness :
    upload_store_gps_data (some ["1,2,3,4,5".toList]) =
      Except.ok (uploadChunks NUM_PER_UPLOAD [] [(⟨1, 2, 3, 4, 5⟩ : GpsFix)]) ∧
    callsPayload (uploadChunks NUM_PER_UPLOAD [] [(⟨1, 2, 3, 4, 5⟩ : GpsFix)]) =
      [(⟨1, 2, 3, 4, 5⟩ : GpsFix)] ∧
    ∀ c ∈ uploadChunks NUM_PER_UPLOAD [] [(⟨1, 2, 3, 4, 5⟩ : GpsFix)],
      ∃ l, c = UploadCall.batch l :=
  C3_theorem.2 _ _ (by decide)

/-! ## C8: malformed record during replay -/

/-- C8 counterexample: a store file whose middle line is malformed and
whose first and last lines are well-formed.  `read_gps_data` raises
(`Except.error`) instead of skipping the malformed record: the well-formed
records are not returned. -/
theorem C8_counterexample :
    parseRecord ("1,2,3,4,5".toList) = Except.ok ⟨1, 2, 3, 4, 5⟩ ∧
    parseRecord ("badline".toList) = Except.error () ∧
    read_gps_data
        (some ["1,2,3,4,5".toList, "badline".toList, "6,7,8,9,10".toList]) =
      Except.error () ∧
    read_gps_data
        (some ["1,2,3,4,5".toList, "badline".toList, "6,7,8,9,10".toList]) ≠
      Except.ok (some [⟨1, 2, 3, 4, 5⟩, ⟨6, 7, 8, 9, 10⟩]) := by
  decide

/-- C8 (amended): if any line of the store file fails to parse as five
comma-separated numeric fields, `read_gps_data` raises the parse error —
replay aborts, and none of the records (not even the well-formed ones) are
returned or skipped over. -/
theorem C8_theorem :
    ∀ lines : List (List Char),
      (∃ l ∈ lines, parseRecord l = Except.error ()) →
      read_gps_data (some lines) = Except.error () := by
  intro lines
  induction lines with
  | nil => rintro ⟨l, hl, _⟩; simp at hl
  | cons l ls ih =>
      rintro ⟨l', hl', herr⟩
      rcases List.mem_cons.mp hl' with rfl | hmem
      · simp only [read_gps_data, parseLines, herr]
        rfl
      · simp only [read_gps_data, parseLines]
        cases hpl : parseRecord l with
        | error e => rfl
        | ok f =>
            have := ih ⟨l', hmem, herr⟩
            simp only [read_gps_data] at this
            cases hls : parseLines ls with
            | error e => rfl
            | ok fs =>
                rw [hls] at this
                exact absurd this (by simp [Except.map])

/-- C8 witness: a file with one well-formed and one malformed line aborts
replay with an error. -/
theorem C8_witness :
    read_gps_data (some ["1,2,3,4,5".toList, "badline".toList]) =
      Except.error () :=
  C8_theorem _ ⟨"badline".toList, by decide, by decide⟩

end WitnessEvaluation
